import Mathlib

set_option linter.unusedVariables false
set_option maxRecDepth 1000000

/-!
Shallow embedding of the `guard_worker` service: a small HTTP worker that
receives security alerts and CSP violation reports, resolves a recipient
address from an application registry, renders an HTML email and forwards it
to a transactional email API.  Strings are modelled as lists of characters,
JavaScript objects as association structures, the platform URL parser and
the outbound network call as explicit parameters, and exceptions as `Except`.
-/

/-- Strings are modelled as lists of characters. -/
abbrev Str := List Char

/-- Model of one global single-character regex replacement pass, as performed
by the JavaScript `String.prototype.replace` with a one-character pattern and
the `g` flag: every occurrence of `c` is replaced by the string `r`. -/
def replaceChar (c : Char) (r : Str) : Str → Str
  | [] => []
  | x :: xs => (if x = c then r else [x]) ++ replaceChar c r xs

/-- The named entity for the ampersand. -/
def ampEnt : Str := "&amp;".toList

/-- The named entity for the less-than sign. -/
def ltEnt : Str := "&lt;".toList

/-- The named entity for the greater-than sign. -/
def gtEnt : Str := "&gt;".toList

/-- The named entity for the double quote. -/
def quotEnt : Str := "&quot;".toList

/-- The numeric entity for the single quote. -/
def aposEnt : Str := "&#039;".toList

/-- Embedding of `escapeHtml` from `src/email.ts`: five sequential global
replacement passes, the ampersand pass first, then `<`, `>`, `"` and the
single quote. -/
def escapeHtml (s : Str) : Str :=
  replaceChar '\x27' aposEnt
    (replaceChar '\x22' quotEnt
      (replaceChar '>' gtEnt
        (replaceChar '<' ltEnt
          (replaceChar '&' ampEnt s))))

/-- The five HTML metacharacters handled by the escaper. -/
def htmlSpecials : List Char := ['&', '<', '>', '\x22', '\x27']

/-- Per-character entity table, written from the specification: each of the
five special characters maps to its entity, every other character maps to
itself. -/
def htmlEntity (c : Char) : Str :=
  if c = '&' then ampEnt
  else if c = '<' then ltEnt
  else if c = '>' then gtEnt
  else if c = '\x22' then quotEnt
  else if c = '\x27' then aposEnt
  else [c]

/-- Specification-side escaper: one independent substitution per character. -/
def escapeHtmlSpec : Str → Str
  | [] => []
  | c :: cs => htmlEntity c ++ escapeHtmlSpec cs

theorem replaceChar_append (c : Char) (r : Str) (xs ys : Str) :
    replaceChar c r (xs ++ ys) = replaceChar c r xs ++ replaceChar c r ys := by
  induction xs with
  | nil => rfl
  | cons x xs ih => simp [replaceChar, ih, List.append_assoc]

theorem escapeHtml_append (xs ys : Str) :
    escapeHtml (xs ++ ys) = escapeHtml xs ++ escapeHtml ys := by
  simp [escapeHtml, replaceChar_append]

theorem escapeHtml_cons (c : Char) (cs : Str) :
    escapeHtml (c :: cs) = escapeHtml [c] ++ escapeHtml cs := by
  have h : c :: cs = [c] ++ cs := rfl
  rw [h, escapeHtml_append]

theorem escapeHtml_single (c : Char) : escapeHtml [c] = htmlEntity c := by
  by_cases h1 : c = '&'
  · subst h1; decide
  by_cases h2 : c = '<'
  · subst h2; decide
  by_cases h3 : c = '>'
  · subst h3; decide
  by_cases h4 : c = '\x22'
  · subst h4; decide
  by_cases h5 : c = '\x27'
  · subst h5; decide
  simp [escapeHtml, htmlEntity, replaceChar, h1, h2, h3, h4, h5]

theorem escapeHtml_eq_spec (s : Str) : escapeHtml s = escapeHtmlSpec s := by
  induction s with
  | nil => rfl
  | cons c cs ih => rw [escapeHtml_cons, escapeHtml_single, ih]; rfl

theorem escapeHtmlSpec_of_safe (s : Str) (h : ∀ c ∈ s, c ∉ htmlSpecials) :
    escapeHtmlSpec s = s := by
  induction s with
  | nil => rfl
  | cons c cs ih =>
    have hc : c ∉ htmlSpecials := h c (List.mem_cons_self c cs)
    have h1 : c ≠ '&' := by intro he; exact hc (by rw [he]; decide)
    have h2 : c ≠ '<' := by intro he; exact hc (by rw [he]; decide)
    have h3 : c ≠ '>' := by intro he; exact hc (by rw [he]; decide)
    have h4 : c ≠ '\x22' := by intro he; exact hc (by rw [he]; decide)
    have h5 : c ≠ '\x27' := by intro he; exact hc (by rw [he]; decide)
    have hrest : escapeHtmlSpec cs = cs := ih (fun d hd => h d (List.mem_cons_of_mem c hd))
    simp [escapeHtmlSpec, htmlEntity, h1, h2, h3, h4, h5, hrest]

/-- C1: for every input string the HTML escaper replaces each occurrence of
`&`, `<`, `>`, `"`, `'` by its entity (`&amp;`, `&lt;`, `&gt;`, `&quot;`,
`&#039;`) as independent per-character substitutions with no double escaping
(the result equals the single-pass specification escaper), an input with none
of the five special characters is returned unchanged, and the empty string
maps to the empty string. -/
theorem c1_escapeHtml_correct (s : Str) :
    escapeHtml s = escapeHtmlSpec s
    ∧ ((∀ c ∈ s, c ∉ htmlSpecials) → escapeHtml s = s)
    ∧ escapeHtml ([] : Str) = [] := by
  refine ⟨escapeHtml_eq_spec s, ?_, rfl⟩
  intro h
  rw [escapeHtml_eq_spec s, escapeHtmlSpec_of_safe s h]

/-- Witness for C1: concrete instances, including the safe-input clause
discharged at the string `hello`. -/
theorem c1_escapeHtml_correct_witness :
    escapeHtml ("hello".toList) = "hello".toList := by
  exact (c1_escapeHtml_correct ("hello".toList)).2.1 (by decide)

/-- Model of the JavaScript `toUpperCase` on one character, restricted to
ASCII as used by the app registry: lowercase letters map to uppercase,
everything else is unchanged. -/
def jsToUpperChar (c : Char) : Char :=
  if 97 ≤ c.toNat ∧ c.toNat ≤ 122 then Char.ofNat (c.toNat - 32) else c

/-- Model of the JavaScript `toLowerCase` on one character (ASCII). -/
def jsToLowerChar (c : Char) : Char :=
  if 65 ≤ c.toNat ∧ c.toNat ≤ 90 then Char.ofNat (c.toNat + 32) else c

/-- Model of `appName.toUpperCase()`. -/
def jsToUpper (s : Str) : Str := s.map jsToUpperChar

/-- The one-character replacement string used by the hyphen-to-underscore
global replace in the registry key normalization. -/
def uscStr : Str := "_".toList

/-- Association-list lookup modelling property access on the worker `Env`
object: the recipient is `undefined` (here `none`) when the key is absent. -/
def lookupEnv : List (Str × Str) → Str → Option Str
  | [], _ => none
  | (k, v) :: rest, key => if k = key then some v else lookupEnv rest key

/-- The registry key `APP_<NORMALIZED>_EMAIL` built by `getRecipientEmail`:
the raw name is uppercased, then every hyphen is replaced by an underscore. -/
def appKeyOf (appName : Str) : Str :=
  "APP_".toList ++ replaceChar '-' uscStr (jsToUpper appName) ++ "_EMAIL".toList

/-- Embedding of `getRecipientEmail` from the worker entry file: normalize
the application name, build the `APP_<NORMALIZED>_EMAIL` key and look it up
in the environment bindings. -/
def getRecipientEmail (appName : Str) (env : List (Str × Str)) : Option Str :=
  lookupEnv env (appKeyOf appName)

/-- Two characters agree up to letter case or are both a hyphen-or-underscore
character.  This is the per-character version of the equivalence quoted by
the specification (`mail-box`, `Mail_Box`, `MAIL_BOX`, `mail_box`). -/
def charNameEquivB (c d : Char) : Bool :=
  (jsToLowerChar c == jsToLowerChar d)
    || (((c == '-') || (c == '_')) && ((d == '-') || (d == '_')))

/-- Two names agree up to letter case and hyphen-versus-underscore. -/
def nameEquivB : Str → Str → Bool
  | [], [] => true
  | c :: cs, d :: ds => charNameEquivB c d && nameEquivB cs ds
  | _, _ => false

theorem charToNat_ofNat_lt {n : Nat} (h : n < 55296) : (Char.ofNat n).toNat = n := by
  have hv : n.isValidChar := Or.inl h
  rw [Char.ofNat, dif_pos hv]
  rfl

theorem char_eq_of_toNat_eq {c d : Char} (h : c.toNat = d.toNat) : c = d := by
  have h2 := congrArg Char.ofNat h
  rwa [Char.ofNat_toNat, Char.ofNat_toNat] at h2

theorem jsToUpperChar_eq_of_toLower_eq {c d : Char}
    (h : jsToLowerChar c = jsToLowerChar d) : jsToUpperChar c = jsToUpperChar d := by
  by_cases hc : 65 ≤ c.toNat ∧ c.toNat ≤ 90
  · by_cases hd : 65 ≤ d.toNat ∧ d.toNat ≤ 90
    · rw [jsToLowerChar, if_pos hc, jsToLowerChar, if_pos hd] at h
      have h2 := congrArg Char.toNat h
      rw [charToNat_ofNat_lt (by omega), charToNat_ofNat_lt (by omega)] at h2
      have : c = d := char_eq_of_toNat_eq (by omega)
      rw [this]
    · rw [jsToLowerChar, if_pos hc, jsToLowerChar, if_neg hd] at h
      have h2 := congrArg Char.toNat h
      rw [charToNat_ofNat_lt (by omega)] at h2
      have hdn : d.toNat = c.toNat + 32 := h2.symm
      have hcu : ¬ (97 ≤ c.toNat ∧ c.toNat ≤ 122) := by omega
      have hdu : 97 ≤ d.toNat ∧ d.toNat ≤ 122 := by omega
      rw [jsToUpperChar, if_neg hcu, jsToUpperChar, if_pos hdu]
      have : d.toNat - 32 = c.toNat := by omega
      rw [this, Char.ofNat_toNat]
  · by_cases hd : 65 ≤ d.toNat ∧ d.toNat ≤ 90
    · rw [jsToLowerChar, if_neg hc, jsToLowerChar, if_pos hd] at h
      have h2 := congrArg Char.toNat h
      rw [charToNat_ofNat_lt (by omega)] at h2
      have hcn : c.toNat = d.toNat + 32 := h2
      have hdu : ¬ (97 ≤ d.toNat ∧ d.toNat ≤ 122) := by omega
      have hcu : 97 ≤ c.toNat ∧ c.toNat ≤ 122 := by omega
      rw [jsToUpperChar, if_pos hcu, jsToUpperChar, if_neg hdu]
      have : c.toNat - 32 = d.toNat := by omega
      rw [this, Char.ofNat_toNat]
    · rw [jsToLowerChar, if_neg hc, jsToLowerChar, if_neg hd] at h
      rw [h]

theorem normHead_eq_of_charEquiv {c d : Char} (h : charNameEquivB c d = true) :
    (if jsToUpperChar c = '-' then uscStr else [jsToUpperChar c])
      = (if jsToUpperChar d = '-' then uscStr else [jsToUpperChar d]) := by
  rw [charNameEquivB, Bool.or_eq_true] at h
  rcases h with h | h
  · have hl : jsToLowerChar c = jsToLowerChar d := by
      have := of_decide_eq_true (by simpa using h)
      exact this
    rw [jsToUpperChar_eq_of_toLower_eq hl]
  · rw [Bool.and_eq_true, Bool.or_eq_true, Bool.or_eq_true] at h
    obtain ⟨h1, h2⟩ := h
    have h1' : c = '-' ∨ c = '_' := by
      rcases h1 with h1 | h1
      · exact Or.inl (by simpa using h1)
      · exact Or.inr (by simpa using h1)
    have h2' : d = '-' ∨ d = '_' := by
      rcases h2 with h2 | h2
      · exact Or.inl (by simpa using h2)
      · exact Or.inr (by simpa using h2)
    rcases h1' with rfl | rfl <;> rcases h2' with rfl | rfl <;> decide

theorem normalized_eq_of_nameEquivB :
    ∀ a b : Str, nameEquivB a b = true →
      replaceChar '-' uscStr (jsToUpper a) = replaceChar '-' uscStr (jsToUpper b) := by
  intro a
  induction a with
  | nil =>
    intro b h
    cases b with
    | nil => rfl
    | cons d ds => simp [nameEquivB] at h
  | cons c cs ih =>
    intro b h
    cases b with
    | nil => simp [nameEquivB] at h
    | cons d ds =>
      rw [nameEquivB, Bool.and_eq_true] at h
      obtain ⟨h1, h2⟩ := h
      show replaceChar '-' uscStr (jsToUpperChar c :: jsToUpper cs)
          = replaceChar '-' uscStr (jsToUpperChar d :: jsToUpper ds)
      rw [replaceChar, replaceChar, normHead_eq_of_charEquiv h1, ih ds h2]

/-- C2: the registry resolver uppercases the name, replaces hyphens with
underscores, looks up `APP_<NORMALIZED>_EMAIL` and returns the bound address
(`none` when the key is absent, never an error); consequently, for any
registry environment, two names that agree up to letter case and
hyphen-versus-underscore resolve identically. -/
theorem c2_getRecipientEmail_correct (env : List (Str × Str)) (a b : Str) :
    getRecipientEmail a env = lookupEnv env (appKeyOf a)
    ∧ (nameEquivB a b = true → getRecipientEmail a env = getRecipientEmail b env) := by
  refine ⟨rfl, ?_⟩
  intro h
  show lookupEnv env (appKeyOf a) = lookupEnv env (appKeyOf b)
  rw [appKeyOf, appKeyOf, normalized_eq_of_nameEquivB a b h]

/-- Witness for C2: with `APP_MAIL_BOX_EMAIL` configured, `mail-box` and
`Mail_Box` resolve to the same recipient. -/
theorem c2_getRecipientEmail_correct_witness :
    getRecipientEmail ("mail-box".toList)
        [("APP_MAIL_BOX_EMAIL".toList, "team@example.com".toList)]
      = getRecipientEmail ("Mail_Box".toList)
        [("APP_MAIL_BOX_EMAIL".toList, "team@example.com".toList)] := by
  exact (c2_getRecipientEmail_correct
    [("APP_MAIL_BOX_EMAIL".toList, "team@example.com".toList)]
    ("mail-box".toList) ("Mail_Box".toList)).2 (by decide)

/-- Boolean test that the first list is a prefix of the second. -/
def isPrefixB : Str → Str → Bool
  | [], _ => true
  | _ :: _, [] => false
  | p :: ps, s :: ss => (p == s) && isPrefixB ps ss

/-- Model of the JavaScript `String.prototype.includes`: `containsStr s pat`
holds when `pat` occurs contiguously inside `s`. -/
def containsStr : Str → Str → Bool
  | [], pat => isPrefixB pat []
  | c :: t, pat => isPrefixB pat (c :: t) || containsStr t pat

/-- Result of the platform URL parser: the two fields the worker reads.  The
`protocol` field carries the trailing colon, as in the platform API. -/
structure URLm where
  protocol : Str
  hostname : Str
deriving DecidableEq

/-- The marker substring checked against the parsed hostname. -/
def sigMarker : Str := "signic.email".toList

/-- The browser-extension scheme checked against the parsed protocol. -/
def chromeExtScheme : Str := "chrome-extension:".toList

/-- The application name inferred for the marker hostname. -/
def mailBoxName : Str := "mail_box".toList

/-- The application name inferred for the extension scheme. -/
def mailBoxWalletName : Str := "mail_box_wallet".toList

/-- Embedding of `inferAppName`: the platform URL parser is passed in as a
function returning `none` where `new URL` would throw; the try/catch of the
source maps the parse failure to `undefined` (here `none`). -/
def inferAppName (parse : Str → Option URLm) (documentUri : Str) : Option Str :=
  match parse documentUri with
  | none => none
  | some u =>
    if containsStr u.hostname sigMarker then some mailBoxName
    else if u.protocol = chromeExtScheme then some mailBoxWalletName
    else none

/-- Embedding of `extractHostname`: the hostname of the parsed URL, or the
original string unchanged when parsing fails. -/
def extractHostname (parse : Str → Option URLm) (urlString : Str) : Str :=
  match parse urlString with
  | some u => u.hostname
  | none => urlString

/-- C5: for every document URI, a parse failure yields no inference (not an
error); on a successful parse a hostname containing `signic.email` yields
`mail_box`, otherwise the `chrome-extension:` scheme yields
`mail_box_wallet`, and otherwise there is no inference. -/
theorem c5_inferAppName_correct (parse : Str → Option URLm) (uri : Str) :
    (parse uri = none → inferAppName parse uri = none)
    ∧ (∀ u, parse uri = some u → containsStr u.hostname sigMarker = true →
        inferAppName parse uri = some mailBoxName)
    ∧ (∀ u, parse uri = some u → containsStr u.hostname sigMarker = false →
        u.protocol = chromeExtScheme → inferAppName parse uri = some mailBoxWalletName)
    ∧ (∀ u, parse uri = some u → containsStr u.hostname sigMarker = false →
        u.protocol ≠ chromeExtScheme → inferAppName parse uri = none) := by
  refine ⟨?_, ?_, ?_, ?_⟩
  · intro h; rw [inferAppName, h]
  · intro u h hc; rw [inferAppName, h]; simp [hc]
  · intro u h hc hp; rw [inferAppName, h]; simp [hc, hp]
  · intro u h hc hp; rw [inferAppName, h]; simp [hc, hp]

/-- Witness for C5: a parser recognising `https://app.signic.email/inbox`
leads the inference to `mail_box`; an unparseable URI yields no inference. -/
theorem c5_inferAppName_correct_witness :
    inferAppName
      (fun s => if s = "https://app.signic.email/inbox".toList
        then some ⟨"https:".toList, "app.signic.email".toList⟩ else none)
      ("https://app.signic.email/inbox".toList) = some mailBoxName := by
  exact (c5_inferAppName_correct
    (fun s => if s = "https://app.signic.email/inbox".toList
      then some ⟨"https:".toList, "app.signic.email".toList⟩ else none)
    ("https://app.signic.email/inbox".toList)).2.1
    ⟨"https:".toList, "app.signic.email".toList⟩ (by decide) (by decide)

mutual
/-- JSON-like runtime value, modelling the `unknown` values of a parsed
request body and the `metadata` mapping. -/
inductive JVal where
  | str : Str → JVal
  | num : Int → JVal
  | jbool : Bool → JVal
  | null : JVal
  | obj : JObj → JVal
  | arr : JArr → JVal

/-- Ordered key-value fields of a JSON object. -/
inductive JObj where
  | nil : JObj
  | cons : Str → JVal → JObj → JObj

/-- Ordered items of a JSON array. -/
inductive JArr where
  | nil : JArr
  | cons : JVal → JArr → JArr
end

/-- Property access on a JSON object: the first binding of the key, `none`
for an absent property (JavaScript `undefined`). -/
def jlookup : JObj → Str → Option JVal
  | .nil, _ => none
  | .cons k v rest, key => if k = key then some v else jlookup rest key

/-- A run of spaces used by the pretty printer. -/
def spacesN (n : Nat) : Str := List.replicate n ' '

/-- JSON string escaping for one character (the cases relevant here). -/
def jsonEscChar (c : Char) : Str :=
  if c = '\x22' then ['\\', '\x22']
  else if c = '\\' then ['\\', '\\']
  else if c = '\n' then ['\\', 'n']
  else if c = '\t' then ['\\', 't']
  else if c = '\x0d' then ['\\', 'r']
  else [c]

/-- JSON string escaping. -/
def jsonEscStr : Str → Str
  | [] => []
  | c :: cs => jsonEscChar c ++ jsonEscStr cs

/-- A JSON string literal with surrounding double quotes. -/
def jquote (s : Str) : Str := '\x22' :: (jsonEscStr s ++ ['\x22'])

mutual
/-- Model of the platform `JSON.stringify(v, null, 2)` (pretty printing with
two-space indentation); `ind` is the indentation level of the enclosing
value.  This is platform behaviour, not repository code; the repository
passes its `metadata` mapping through it before escaping. -/
def jsonStringifyAt (ind : Nat) : JVal → Str := fun v =>
  match v with
  | .str s => jquote s
  | .num n => (toString n).toList
  | .jbool b => if b then "true".toList else "false".toList
  | .null => "null".toList
  | .obj o =>
    match o with
    | .nil => "\x7b\x7d".toList
    | .cons _ _ _ =>
      ('\x7b' :: '\n' :: jsonObjFields (ind + 2) o) ++ ('\n' :: (spacesN ind ++ ['\x7d']))
  | .arr a =>
    match a with
    | .nil => "[]".toList
    | .cons _ _ =>
      ('[' :: '\n' :: jsonArrItems (ind + 2) a) ++ ('\n' :: (spacesN ind ++ [']']))

/-- Pretty-printed object fields, separated by a comma and newline. -/
def jsonObjFields (ind : Nat) : JObj → Str
  | .nil => []
  | .cons k v .nil => spacesN ind ++ (jquote k ++ (':' :: ' ' :: jsonStringifyAt ind v))
  | .cons k v (.cons k2 v2 rest) =>
    spacesN ind ++ (jquote k ++ (':' :: ' ' :: jsonStringifyAt ind v))
      ++ (',' :: '\n' :: jsonObjFields ind (JObj.cons k2 v2 rest))

/-- Pretty-printed array items, separated by a comma and newline. -/
def jsonArrItems (ind : Nat) : JArr → Str
  | .nil => []
  | .cons v .nil => spacesN ind ++ jsonStringifyAt ind v
  | .cons v (.cons v2 rest) =>
    spacesN ind ++ jsonStringifyAt ind v ++ (',' :: '\n' :: jsonArrItems ind (JArr.cons v2 rest))
end

/-- The alert type enumeration from `src/email.ts`. -/
inductive AlertType where
  | unauthorized_fetch : AlertType
  | unauthorized_xhr : AlertType
  | unauthorized_websocket : AlertType
  | csp_violation : AlertType
deriving DecidableEq

/-- The wire string of each alert type. -/
def AlertType.toStr : AlertType → Str
  | .unauthorized_fetch => "unauthorized_fetch".toList
  | .unauthorized_xhr => "unauthorized_xhr".toList
  | .unauthorized_websocket => "unauthorized_websocket".toList
  | .csp_violation => "csp_violation".toList

/-- Embedding of `VALID_ALERT_TYPES` from `src/email.ts`. -/
def VALID_ALERT_TYPES : List Str :=
  ["unauthorized_fetch".toList, "unauthorized_xhr".toList,
   "unauthorized_websocket".toList, "csp_violation".toList]

/-- The `SecurityAlert` record from `src/email.ts`. -/
structure SecurityAlert where
  appName : Str
  type : AlertType
  url : Str
  hostname : Str
  timestamp : Int
  stack : Option Str := none
  appVersion : Option Str := none
  userAgent : Option Str := none
  metadata : Option JVal := none

/-- JavaScript truthiness of an optional string: absent (`undefined`) and
the empty string are falsy. -/
def truthyStrOpt : Option Str → Bool
  | none => false
  | some s => !s.isEmpty

/-- The one-character replacement string of the underscore-to-space replace
in the email header. -/
def spaceStr : Str := " ".toList

/-- The email header line: the alert type with underscores replaced by
spaces, uppercased. -/
def typeHeaderStr (t : AlertType) : Str := jsToUpper (replaceChar '_' spaceStr t.toStr)

/-- Whether a character is trimmed by the JavaScript `String.prototype.trim`
(the whitespace actually occurring at the template edges). -/
def isJsSpace (c : Char) : Bool := (c == ' ') || (c == '\n') || (c == '\t') || (c == '\x0d')

/-- Model of `String.prototype.trim`: strip leading and trailing whitespace. -/
def jsTrim (s : Str) : Str :=
  ((s.dropWhile isJsSpace).reverse.dropWhile isJsSpace).reverse

/-- Template text from the start of the email document to the point where the
header type string is interpolated. -/
def tplHead : Str := "\n<!DOCTYPE html>\n<html>\n<head>\n  <style>\n    body \x7b font-family: -apple-system, BlinkMacSystemFont, \x27Segoe UI\x27, Roboto, sans-serif; line-height: 1.6; color: #333; \x7d\n    .container \x7b max-width: 600px; margin: 0 auto; padding: 20px; \x7d\n    .header \x7b background: #dc2626; color: white; padding: 20px; border-radius: 8px 8px 0 0; \x7d\n    .content \x7b background: #f9fafb; padding: 20px; border: 1px solid #e5e7eb; border-top: none; border-radius: 0 0 8px 8px; \x7d\n    .field \x7b margin-bottom: 12px; \x7d\n    .label \x7b font-weight: 600; color: #6b7280; font-size: 12px; text-transform: uppercase; \x7d\n    .value \x7b font-family: monospace; background: #e5e7eb; padding: 8px 12px; border-radius: 4px; word-break: break-all; \x7d\n    .stack \x7b font-size: 12px; white-space: pre-wrap; max-height: 200px; overflow: auto; \x7d\n  </style>\n</head>\n<body>\n  <div class=\"container\">\n    <div class=\"header\">\n      <h2 style=\"margin: 0;\">Security Alert</h2>\n      <p style=\"margin: 8px 0 0 0; opacity: 0.9;\">".toList

/-- Template text between the header type and the application name. -/
def tpl1 : Str := "</p>\n    </div>\n    <div class=\"content\">\n      <div class=\"field\">\n        <div class=\"label\">Application</div>\n        <div class=\"value\">".toList

/-- Template text between the application name and the timestamp. -/
def tpl2 : Str := "</div>\n      </div>\n      <div class=\"field\">\n        <div class=\"label\">Date & Time</div>\n        <div class=\"value\">".toList

/-- Template text between the timestamp and the blocked URL. -/
def tpl3 : Str := "</div>\n      </div>\n      <div class=\"field\">\n        <div class=\"label\">Blocked URL</div>\n        <div class=\"value\">".toList

/-- Template text between the blocked URL and the hostname. -/
def tpl4 : Str := "</div>\n      </div>\n      <div class=\"field\">\n        <div class=\"label\">Hostname</div>\n        <div class=\"value\">".toList

/-- Template text between the hostname and the first conditional block. -/
def tpl5 : Str := "</div>\n      </div>\n      ".toList

/-- Template text between two consecutive conditional blocks. -/
def tplGlue : Str := "\n      ".toList

/-- Template text after the last conditional block to the document end,
including the trailing whitespace removed by the final trim. -/
def tplTail : Str := "\n    </div>\n  </div>\n</body>\n</html>\n  ".toList

/-- Opening text of the conditional App Version block. -/
def avPre : Str := "\n      <div class=\"field\">\n        <div class=\"label\">App Version</div>\n        <div class=\"value\">".toList

/-- Closing text of the conditional App Version block. -/
def avPost : Str := "</div>\n      </div>\n      ".toList

/-- Opening text of the conditional User Agent block. -/
def uaPre : Str := "\n      <div class=\"field\">\n        <div class=\"label\">User Agent</div>\n        <div class=\"value\">".toList

/-- Closing text of the conditional User Agent block. -/
def uaPost : Str := "</div>\n      </div>\n      ".toList

/-- Opening text of the conditional Stack Trace block. -/
def stPre : Str := "\n      <div class=\"field\">\n        <div class=\"label\">Stack Trace</div>\n        <div class=\"value stack\">".toList

/-- Closing text of the conditional Stack Trace block. -/
def stPost : Str := "</div>\n      </div>\n      ".toList

/-- Opening text of the conditional metadata block. -/
def mePre : Str := "\n      <div class=\"field\">\n        <div class=\"label\">Additional Details</div>\n        <div class=\"value\"><pre>".toList

/-- Closing text of the conditional metadata block. -/
def mePost : Str := "</pre></div>\n      </div>\n      ".toList

/-- One conditional template block over an optional string field: rendered
(opening text, escaped value, closing text) exactly when the value is truthy,
as by the ternary interpolations of the template. -/
def optBlock (pre post : Str) (v : Option Str) : Str :=
  match v with
  | none => []
  | some s => if s.isEmpty then [] else pre ++ (escapeHtml s ++ post)

/-- The conditional metadata block: an object is always truthy, and its
pretty-printed JSON is escaped before interpolation. -/
def metaBlock (m : Option JVal) : Str :=
  match m with
  | none => []
  | some j => mePre ++ (escapeHtml (jsonStringifyAt 0 j) ++ mePost)

/-- Embedding of `formatSecurityAlertEmail` from `src/email.ts`: the full
HTML document template with the escaped field values interpolated, the four
conditional blocks, and the final trim.  The platform ISO timestamp
formatter (`new Date(..).toISOString()`) is the `toISO` parameter. -/
def formatSecurityAlertEmail (toISO : Int → Str) (alert : SecurityAlert) : Str :=
  jsTrim
    (tplHead ++ (typeHeaderStr alert.type
      ++ (tpl1 ++ (escapeHtml alert.appName
        ++ (tpl2 ++ (toISO alert.timestamp
          ++ (tpl3 ++ (escapeHtml alert.url
            ++ (tpl4 ++ (escapeHtml alert.hostname
              ++ (tpl5 ++ (optBlock avPre avPost alert.appVersion
                ++ (tplGlue ++ (optBlock uaPre uaPost alert.userAgent
                  ++ (tplGlue ++ (optBlock stPre stPost alert.stack
                    ++ (tplGlue ++ (metaBlock alert.metadata
                      ++ tplTail))))))))))))))))))

/-- HTTP response model: status code and optional body text. -/
structure Resp where
  status : Nat
  body : Option Str
deriving DecidableEq

/-- One outbound email request handed to the transport. -/
structure EmailMsg where
  toAddr : Str
  subject : Str
  html : Str
deriving DecidableEq

/-- Embedding of `isNonEmptyString` applied to a JSON property: a string
value with at least one character. -/
def isNonEmptyStringV : Option JVal → Bool
  | some (.str s) => !s.isEmpty
  | _ => false

/-- The `typeof x` equal to string test on a JSON property. -/
def isStringV : Option JVal → Bool
  | some (.str _) => true
  | _ => false

/-- The `typeof x` equal to number test on a JSON property. -/
def isNumberV : Option JVal → Bool
  | some (.num _) => true
  | _ => false

/-- Property name of the application name. -/
def appNameKey : Str := "appName".toList

/-- Property name of the alert type. -/
def typeKey : Str := "type".toList

/-- Property name of the blocked URL. -/
def urlKey : Str := "url".toList

/-- Property name of the hostname. -/
def hostnameKey : Str := "hostname".toList

/-- Property name of the timestamp. -/
def timestampKey : Str := "timestamp".toList

/-- Property name of the stack trace. -/
def stackKey : Str := "stack".toList

/-- Property name of the application version. -/
def appVersionKey : Str := "appVersion".toList

/-- Property name of the user agent. -/
def userAgentKey : Str := "userAgent".toList

/-- Property name of the metadata mapping. -/
def metadataKey : Str := "metadata".toList

/-- Whether the type property is a string listed in `VALID_ALERT_TYPES`. -/
def typeIncludedB : Option JVal → Bool
  | some (.str s) => VALID_ALERT_TYPES.contains s
  | _ => false

/-- Model of `Array.prototype.join` with a comma-space separator. -/
def joinCommaSpace : List Str → Str
  | [] => []
  | [s] => s
  | s :: rest => s ++ (',' :: ' ' :: joinCommaSpace rest)

/-- Validation message for a bad application name. -/
def msgAppName : Str := "appName must be a non-empty string".toList

/-- Validation message for a bad alert type. -/
def msgType : Str := "type must be one of: ".toList ++ joinCommaSpace VALID_ALERT_TYPES

/-- Validation message for a bad URL field. -/
def msgUrl : Str := "url must be a string".toList

/-- Validation message for a bad hostname field. -/
def msgHostname : Str := "hostname must be a string".toList

/-- Validation message for a bad timestamp field. -/
def msgTimestamp : Str := "timestamp must be a number".toList

/-- Embedding of `validateAlertPayload`: the five checks in source order,
returning the first failing check's message, or `none` when valid. -/
def validateAlertPayload (p : JObj) : Option Str :=
  if !(isNonEmptyStringV (jlookup p appNameKey)) then some msgAppName
  else if !(isNonEmptyStringV (jlookup p typeKey)) || !(typeIncludedB (jlookup p typeKey)) then
    some msgType
  else if !(isStringV (jlookup p urlKey)) then some msgUrl
  else if !(isStringV (jlookup p hostnameKey)) then some msgHostname
  else if !(isNumberV (jlookup p timestampKey)) then some msgTimestamp
  else none

/-- String content of a JSON property (used only after validation). -/
def strOf : Option JVal → Str
  | some (.str s) => s
  | _ => []

/-- Optional string content of a JSON property. -/
def strOptOf : Option JVal → Option Str
  | some (.str s) => some s
  | _ => none

/-- Numeric content of a JSON property (used only after validation). -/
def intOf : Option JVal → Int
  | some (.num n) => n
  | _ => 0

/-- The enum constructor of a validated type string. -/
def alertTypeOf (s : Str) : AlertType :=
  if s = AlertType.unauthorized_xhr.toStr then .unauthorized_xhr
  else if s = AlertType.unauthorized_websocket.toStr then .unauthorized_websocket
  else if s = AlertType.csp_violation.toStr then .csp_violation
  else .unauthorized_fetch

/-- The `payload as SecurityAlert` cast of the handler, reading the payload
properties into the alert record. -/
def toAlert (p : JObj) : SecurityAlert :=
  { appName := strOf (jlookup p appNameKey)
    type := alertTypeOf (strOf (jlookup p typeKey))
    url := strOf (jlookup p urlKey)
    hostname := strOf (jlookup p hostnameKey)
    timestamp := intOf (jlookup p timestampKey)
    stack := strOptOf (jlookup p stackKey)
    appVersion := strOptOf (jlookup p appVersionKey)
    userAgent := strOptOf (jlookup p userAgentKey)
    metadata := jlookup p metadataKey }

/-- The JSON body produced by `JSON.stringify` on a success-false object with
an error message (none of the worker messages needs string escaping). -/
def errBody (msg : Str) : Str :=
  "\x7b\"success\":false,\"error\":\"".toList ++ (msg ++ "\"\x7d".toList)

/-- The JSON body produced for the alert handler's final response. -/
def successBody (b : Bool) : Str :=
  if b then "\x7b\"success\":true\x7d".toList else "\x7b\"success\":false\x7d".toList

/-- The unknown-application error message. -/
def unknownAppMsg : Str := "Unknown app".toList

/-- Subject line text of the alert handler. -/
def alertSubjectPre : Str := "[Security Alert] ".toList

/-- Subject line text of the CSP handler. -/
def cspSubjectPre : Str := "[CSP Violation] ".toList

/-- The colon-space separator of the subject lines. -/
def colonSpace : Str := ": ".toList

/-- Embedding of `handleSecurityAlert` on an already-parsed JSON body: the
transport (sendEmail composed with the network) is a parameter, the second
component of the result lists the transport invocations, and `Except.error`
models an exception escaping the handler. -/
def handleSecurityAlert (p : JObj) (env : List (Str × Str))
    (transport : EmailMsg → Except Unit Bool) (toISO : Int → Str) :
    Except Unit (Resp × List EmailMsg) :=
  match validateAlertPayload p with
  | some err => .ok (⟨400, some (errBody err)⟩, [])
  | none =>
    let alert := toAlert p
    match getRecipientEmail alert.appName env with
    | none => .ok (⟨400, some (errBody unknownAppMsg)⟩, [])
    | some recipient =>
      let msg : EmailMsg :=
        ⟨recipient, alertSubjectPre ++ (alert.appName ++ (colonSpace ++ alert.type.toStr)),
          formatSecurityAlertEmail toISO alert⟩
      match transport msg with
      | .error e => .error e
      | .ok emailSent =>
        .ok (⟨if emailSent then 200 else 500, some (successBody emailSent)⟩, [msg])

/-- The CSP report fields read by the worker. -/
structure CspData where
  documentUri : Str
  violatedDirective : Str
  blockedUri : Str
  originalPolicy : Option Str := none
  sourceFile : Option Str := none
  lineNumber : Option Int := none

/-- The application name determined for a CSP report: the query parameter
when it is a truthy (non-empty) string, else the document-URI inference. -/
def cspAppName (qp : Option Str) (parse : Str → Option URLm) (du : Str) : Option Str :=
  match qp with
  | some s => if s.isEmpty then inferAppName parse du else some s
  | none => inferAppName parse du

/-- Concatenation of object field lists. -/
def jobjAppend : JObj → JObj → JObj
  | .nil, o => o
  | .cons k v rest, o => .cons k v (jobjAppend rest o)

/-- A single optional object field, absent when the value is absent
(`JSON.stringify` drops undefined-valued properties). -/
def optField (k : Str) : Option JVal → JObj
  | none => .nil
  | some v => .cons k v .nil

/-- Metadata key for the document URI. -/
def documentUriKey : Str := "documentUri".toList

/-- Metadata key for the violated directive. -/
def violatedDirectiveKey : Str := "violatedDirective".toList

/-- Metadata key for the original policy. -/
def originalPolicyKey : Str := "originalPolicy".toList

/-- Metadata key for the source file. -/
def sourceFileKey : Str := "sourceFile".toList

/-- Metadata key for the line number. -/
def lineNumberKey : Str := "lineNumber".toList

/-- The metadata object carried by a synthesized CSP alert. -/
def cspMetadata (csp : CspData) : JObj :=
  .cons documentUriKey (.str csp.documentUri)
    (.cons violatedDirectiveKey (.str csp.violatedDirective)
      (jobjAppend (optField originalPolicyKey (csp.originalPolicy.map JVal.str))
        (jobjAppend (optField sourceFileKey (csp.sourceFile.map JVal.str))
          (optField lineNumberKey (csp.lineNumber.map JVal.num)))))

/-- The `SecurityAlert` synthesized by `handleCspReport`: type
`csp_violation`, URL the blocked URI, hostname extracted from the blocked
URI, timestamp the current time (`Date.now()`, a parameter here). -/
def synthesizeAlert (parse : Str → Option URLm) (csp : CspData) (appName : Str)
    (now : Int) : SecurityAlert :=
  { appName := appName
    type := .csp_violation
    url := csp.blockedUri
    hostname := extractHostname parse csp.blockedUri
    timestamp := now
    metadata := some (.obj (cspMetadata csp)) }

/-- Embedding of `handleCspReport` on an already-parsed report: determine the
application name (query parameter or inference), resolve the recipient,
synthesize the alert, send, and answer 204 in every reachable outcome. -/
def handleCspReport (csp : CspData) (qp : Option Str) (env : List (Str × Str))
    (transport : EmailMsg → Except Unit Bool) (toISO : Int → Str)
    (parse : Str → Option URLm) (now : Int) : Except Unit (Resp × List EmailMsg) :=
  match cspAppName qp parse csp.documentUri with
  | none => .ok (⟨204, none⟩, [])
  | some appName =>
    match getRecipientEmail appName env with
    | none => .ok (⟨204, none⟩, [])
    | some recipient =>
      let alert := synthesizeAlert parse csp appName now
      let msg : EmailMsg :=
        ⟨recipient, cspSubjectPre ++ (appName ++ (colonSpace ++ csp.violatedDirective)),
          formatSecurityAlertEmail toISO alert⟩
      match transport msg with
      | .error e => .error e
      | .ok _ => .ok (⟨204, none⟩, [msg])

/-- The provider response as seen by `sendEmail`: its `ok` flag. -/
structure HttpResp where
  ok : Bool
deriving DecidableEq

/-- Environment key of the provider credential. -/
def sendgridKeyName : Str := "SENDGRID_API_KEY".toList

/-- Embedding of `sendEmail`: a missing or empty credential short-circuits to
`false`; otherwise the outbound `fetch` outcome (a parameter, `Except.error`
standing for a rejected network call) decides the result.  A rejected call
propagates as an exception, since the source has no try/catch around it. -/
def sendEmail (env : List (Str × Str)) (fetchResult : Except Unit HttpResp) :
    Except Unit Bool :=
  if !(truthyStrOpt (lookupEnv env sendgridKeyName)) then .ok false
  else
    match fetchResult with
    | .error e => .error e
    | .ok resp => if !resp.ok then .ok false else .ok true

/-- Accumulator run of `parseInt` over decimal digits. -/
def digitsValAux (acc : Nat) : Str → Nat
  | [] => acc
  | c :: cs => digitsValAux (acc * 10 + (c.toNat - 48)) cs

/-- Model of the platform `parseInt(s, 10)`: skip leading whitespace, read an
optional sign and a non-empty run of decimal digits; `none` models `NaN`. -/
def parseIntJS (s : Str) : Option Int :=
  match s.dropWhile isJsSpace with
  | '-' :: rest =>
    if (rest.takeWhile Char.isDigit).isEmpty then none
    else some (-(digitsValAux 0 (rest.takeWhile Char.isDigit) : Int))
  | '+' :: rest =>
    if (rest.takeWhile Char.isDigit).isEmpty then none
    else some ((digitsValAux 0 (rest.takeWhile Char.isDigit) : Int))
  | t =>
    if (t.takeWhile Char.isDigit).isEmpty then none
    else some ((digitsValAux 0 (t.takeWhile Char.isDigit) : Int))

/-- Embedding of `MAX_REQUEST_BODY_SIZE` (100 KB). -/
def MAX_REQUEST_BODY_SIZE : Int := 100 * 1024

/-- The payload-too-large error message. -/
def payloadTooLargeMsg : Str := "Payload too large".toList

/-- The body-size guard of the dispatcher: a truthy Content-Length header
whose parsed value exceeds the limit (a `NaN` comparison is false). -/
def sizeExceededB (contentLength : Option Str) : Bool :=
  match contentLength with
  | none => false
  | some s =>
    !s.isEmpty && (match parseIntJS s with
      | some n => decide (n > MAX_REQUEST_BODY_SIZE)
      | none => false)

/-- The OPTIONS method string. -/
def methodOptions : Str := "OPTIONS".toList

/-- The POST method string. -/
def methodPost : Str := "POST".toList

/-- The alert path. -/
def pathAlert : Str := "/alert".toList

/-- The alternate alert path. -/
def pathSecurityAlert : Str := "/security-alert".toList

/-- The CSP report path. -/
def pathCspReport : Str := "/csp-report".toList

/-- The generic internal error message of the catch clause. -/
def internalErrorMsg : Str := "Internal error".toList

/-- The plain-text 405 body. -/
def methodNotAllowedBody : Str := "Method not allowed".toList

/-- The plain-text 404 body. -/
def notFoundBody : Str := "Not found".toList

/-- Path routing inside the try block, with the catch clause mapping a thrown
handler exception to the generic 500 response. -/
def routeAndCatch (path : Str) (hAlert hCsp : Except Unit Resp) : Resp :=
  if path = pathAlert ∨ path = pathSecurityAlert then
    match hAlert with
    | .ok r => r
    | .error _ => ⟨500, some (errBody internalErrorMsg)⟩
  else if path = pathCspReport then
    match hCsp with
    | .ok r => r
    | .error _ => ⟨500, some (errBody internalErrorMsg)⟩
  else ⟨404, some notFoundBody⟩

/-- Embedding of the top-level `fetch` dispatcher: CORS preflight, method
restriction, Content-Length size guard, then path routing.  The handler
outcomes are parameters, so the guard's independence from them expresses
that it fires before any handler runs. -/
def workerFetch (method path : Str) (contentLength : Option Str)
    (hAlert hCsp : Except Unit Resp) : Resp :=
  if method = methodOptions then ⟨200, none⟩
  else if method ≠ methodPost then ⟨405, some methodNotAllowedBody⟩
  else if sizeExceededB contentLength then ⟨413, some (errBody payloadTooLargeMsg)⟩
  else routeAndCatch path hAlert hCsp

/-- Decidable equality of `Except` outcomes, for evaluating the handler
models on concrete inputs. -/
def exceptDecEq {e a : Type} [DecidableEq e] [DecidableEq a] :
    DecidableEq (Except e a) := fun x y =>
  match x, y with
  | .ok v, .ok w =>
    if h : v = w then isTrue (by rw [h]) else isFalse (by intro he; cases he; exact h rfl)
  | .error v, .error w =>
    if h : v = w then isTrue (by rw [h]) else isFalse (by intro he; cases he; exact h rfl)
  | .ok _, .error _ => isFalse (by intro he; cases he)
  | .error _, .ok _ => isFalse (by intro he; cases he)

instance {e a : Type} [DecidableEq e] [DecidableEq a] : DecidableEq (Except e a) :=
  exceptDecEq

/-- C7 counterexample: with the credential configured and the outbound
network call rejected, `sendEmail` does not return `false` — the exception
propagates out of it, refuting the claim's uniform-false clause at this
concrete input. -/
theorem c7_sendEmail_counterexample :
    sendEmail [(sendgridKeyName, "key".toList)] (Except.error ())
      ≠ Except.ok false := by
  decide

/-- C7 (amended): `sendEmail` returns `false` when the credential is absent
or empty and when the provider responds with a non-success status, returns
`true` only when the provider responds with a success status, and a failed
outbound network call propagates as an exception to the caller instead of
returning `false`. -/
theorem c7_sendEmail_amended (env : List (Str × Str)) (fr : Except Unit HttpResp) :
    (truthyStrOpt (lookupEnv env sendgridKeyName) = false → sendEmail env fr = .ok false)
    ∧ (∀ r, truthyStrOpt (lookupEnv env sendgridKeyName) = true → fr = .ok r →
        sendEmail env fr = .ok r.ok)
    ∧ (sendEmail env fr = .ok true →
        truthyStrOpt (lookupEnv env sendgridKeyName) = true ∧ fr = .ok ⟨true⟩)
    ∧ (∀ e, truthyStrOpt (lookupEnv env sendgridKeyName) = true → fr = .error e →
        sendEmail env fr = .error e) := by
  refine ⟨?_, ?_, ?_, ?_⟩
  · intro h
    simp [sendEmail, h]
  · intro r h hfr
    subst hfr
    obtain ⟨b⟩ := r
    cases b <;> simp [sendEmail, h]
  · intro h
    by_cases ht : truthyStrOpt (lookupEnv env sendgridKeyName) = true
    · refine ⟨ht, ?_⟩
      cases fr with
      | error e => simp [sendEmail, ht] at h
      | ok r =>
        obtain ⟨b⟩ := r
        cases b
        · simp [sendEmail, ht] at h
        · rfl
    · rw [Bool.not_eq_true] at ht
      simp [sendEmail, ht] at h
  · intro e h hfr
    subst hfr
    simp [sendEmail, h]

/-- Witness for the amended C7: a provider non-success response yields
`Except.ok false`. -/
theorem c7_sendEmail_amended_witness :
    sendEmail [(sendgridKeyName, "key".toList)] (Except.ok ⟨false⟩)
      = Except.ok false := by
  exact (c7_sendEmail_amended [(sendgridKeyName, "key".toList)]
    (Except.ok ⟨false⟩)).2.1 ⟨false⟩ (by decide) rfl

/-- The conjunction of the five required-field checks quoted by the claim:
`appName` a non-empty string, `type` in the four-value enum, `url` and
`hostname` strings, `timestamp` numeric. -/
def requiredFieldsOkB (p : JObj) : Bool :=
  isNonEmptyStringV (jlookup p appNameKey)
    && typeIncludedB (jlookup p typeKey)
    && isStringV (jlookup p urlKey)
    && isStringV (jlookup p hostnameKey)
    && isNumberV (jlookup p timestampKey)

theorem isNonEmptyStringV_of_typeIncluded {v : Option JVal}
    (h : typeIncludedB v = true) : isNonEmptyStringV v = true := by
  cases v with
  | none => simp [typeIncludedB] at h
  | some j =>
    cases j with
    | str s =>
      rw [typeIncludedB] at h
      have hm : s = "unauthorized_fetch".toList ∨ s = "unauthorized_xhr".toList
          ∨ s = "unauthorized_websocket".toList ∨ s = "csp_violation".toList := by
        simpa [VALID_ALERT_TYPES] using h
      rcases hm with rfl | rfl | rfl | rfl <;> decide
    | num n => simp [typeIncludedB] at h
    | jbool b => simp [typeIncludedB] at h
    | null => simp [typeIncludedB] at h
    | obj o => simp [typeIncludedB] at h
    | arr a => simp [typeIncludedB] at h

/-- C3: whenever any required field fails validation, the validator reports
one of the five field-specific messages and the handler answers 400 with
that message in the JSON error body, invoking the transport for no request. -/
theorem c3_validation_rejects (p : JObj) (env : List (Str × Str))
    (transport : EmailMsg → Except Unit Bool) (toISO : Int → Str)
    (h : requiredFieldsOkB p = false) :
    ∃ msg, validateAlertPayload p = some msg
      ∧ msg ∈ [msgAppName, msgType, msgUrl, msgHostname, msgTimestamp]
      ∧ handleSecurityAlert p env transport toISO
          = .ok (⟨400, some (errBody msg)⟩, []) := by
  cases hc1 : isNonEmptyStringV (jlookup p appNameKey) with
  | false =>
    have hval : validateAlertPayload p = some msgAppName := by
      simp [validateAlertPayload, hc1]
    exact ⟨msgAppName, hval, by simp, by simp [handleSecurityAlert, hval]⟩
  | true =>
    cases hc2 : typeIncludedB (jlookup p typeKey) with
    | false =>
      have hval : validateAlertPayload p = some msgType := by
        simp [validateAlertPayload, hc1, hc2]
      exact ⟨msgType, hval, by simp, by simp [handleSecurityAlert, hval]⟩
    | true =>
      have hts : isNonEmptyStringV (jlookup p typeKey) = true :=
        isNonEmptyStringV_of_typeIncluded hc2
      cases hc3 : isStringV (jlookup p urlKey) with
      | false =>
        have hval : validateAlertPayload p = some msgUrl := by
          simp [validateAlertPayload, hc1, hc2, hts, hc3]
        exact ⟨msgUrl, hval, by simp, by simp [handleSecurityAlert, hval]⟩
      | true =>
        cases hc4 : isStringV (jlookup p hostnameKey) with
        | false =>
          have hval : validateAlertPayload p = some msgHostname := by
            simp [validateAlertPayload, hc1, hc2, hts, hc3, hc4]
          exact ⟨msgHostname, hval, by simp, by simp [handleSecurityAlert, hval]⟩
        | true =>
          cases hc5 : isNumberV (jlookup p timestampKey) with
          | false =>
            have hval : validateAlertPayload p = some msgTimestamp := by
              simp [validateAlertPayload, hc1, hc2, hts, hc3, hc4, hc5]
            exact ⟨msgTimestamp, hval, by simp, by simp [handleSecurityAlert, hval]⟩
          | true =>
            rw [requiredFieldsOkB, hc1, hc2, hc3, hc4, hc5] at h
            simp at h

/-- Witness for C3: the empty payload is rejected with the `appName` message
and no transport call. -/
theorem c3_validation_rejects_witness :
    ∃ msg, validateAlertPayload JObj.nil = some msg
      ∧ msg ∈ [msgAppName, msgType, msgUrl, msgHostname, msgTimestamp]
      ∧ handleSecurityAlert JObj.nil [] (fun _ => Except.ok true) (fun _ => [])
          = .ok (⟨400, some (errBody msg)⟩, []) := by
  exact c3_validation_rejects JObj.nil [] (fun _ => Except.ok true) (fun _ => [])
    (by decide)

/-- C4: when the application name does not resolve in the registry, the
alert handler answers 400 with exactly the unknown-app JSON body and makes
no transport call, while the CSP handler answers 204 with an empty body and
makes no transport call. -/
theorem c4_unknown_app (p : JObj) (csp : CspData) (qp : Option Str)
    (env : List (Str × Str)) (transport : EmailMsg → Except Unit Bool)
    (toISO : Int → Str) (parse : Str → Option URLm) (now : Int) (name : Str) :
    (validateAlertPayload p = none →
      getRecipientEmail (toAlert p).appName env = none →
      handleSecurityAlert p env transport toISO
        = .ok (⟨400, some (errBody unknownAppMsg)⟩, []))
    ∧ (cspAppName qp parse csp.documentUri = some name →
        getRecipientEmail name env = none →
        handleCspReport csp qp env transport toISO parse now = .ok (⟨204, none⟩, []))
    ∧ errBody unknownAppMsg
        = "\x7b\"success\":false,\"error\":\"Unknown app\"\x7d".toList := by
  refine ⟨?_, ?_, by decide⟩
  · intro hv hr
    simp [handleSecurityAlert, hv, hr]
  · intro hn hr
    simp [handleCspReport, hn, hr]

/-- Witness for C4: a well-formed alert for the unregistered `ghost_app` is
rejected with 400 and the unknown-app body, and the matching CSP report is
swallowed with 204; neither invokes the transport. -/
theorem c4_unknown_app_witness :
    handleSecurityAlert
        (JObj.cons appNameKey (.str ("ghost_app".toList))
          (JObj.cons typeKey (.str ("unauthorized_fetch".toList))
            (JObj.cons urlKey (.str ("https://evil.example".toList))
              (JObj.cons hostnameKey (.str ("evil.example".toList))
                (JObj.cons timestampKey (.num 1700000000000) JObj.nil)))))
        [] (fun _ => Except.ok true) (fun _ => [])
      = .ok (⟨400, some (errBody unknownAppMsg)⟩, [])
    ∧ handleCspReport
        ⟨"https://ghost.example/page".toList, "img-src".toList,
          "https://evil.example/x.png".toList, none, none, none⟩
        (some ("ghost_app".toList)) [] (fun _ => Except.ok true) (fun _ => [])
        (fun _ => none) 1700000000000
      = .ok (⟨204, none⟩, []) := by
  refine ⟨?_, ?_⟩
  · exact (c4_unknown_app
      (JObj.cons appNameKey (.str ("ghost_app".toList))
        (JObj.cons typeKey (.str ("unauthorized_fetch".toList))
          (JObj.cons urlKey (.str ("https://evil.example".toList))
            (JObj.cons hostnameKey (.str ("evil.example".toList))
              (JObj.cons timestampKey (.num 1700000000000) JObj.nil)))))
      ⟨"https://ghost.example/page".toList, "img-src".toList,
        "https://evil.example/x.png".toList, none, none, none⟩
      (some ("ghost_app".toList)) [] (fun _ => Except.ok true) (fun _ => [])
      (fun _ => none) 1700000000000 ("ghost_app".toList)).1 (by decide) (by decide)
  · exact (c4_unknown_app
      (JObj.cons appNameKey (.str ("ghost_app".toList))
        (JObj.cons typeKey (.str ("unauthorized_fetch".toList))
          (JObj.cons urlKey (.str ("https://evil.example".toList))
            (JObj.cons hostnameKey (.str ("evil.example".toList))
              (JObj.cons timestampKey (.num 1700000000000) JObj.nil)))))
      ⟨"https://ghost.example/page".toList, "img-src".toList,
        "https://evil.example/x.png".toList, none, none, none⟩
      (some ("ghost_app".toList)) [] (fun _ => Except.ok true) (fun _ => [])
      (fun _ => none) 1700000000000 ("ghost_app".toList)).2.1 (by decide) (by decide)

/-- C6: with a validated payload and a resolved recipient, the alert
handler's response mirrors the transport outcome — 200 with the
success-true body when the transport reports success, 500 with the
success-false body otherwise — while the CSP handler answers 204 with an
empty body in both cases; in each case exactly one transport call is made. -/
theorem c6_transport_propagation (p : JObj) (csp : CspData) (qp : Option Str)
    (env : List (Str × Str)) (toISO : Int → Str) (parse : Str → Option URLm)
    (now : Int) (r name : Str) (b : Bool) :
    (validateAlertPayload p = none →
      getRecipientEmail (toAlert p).appName env = some r →
      ∃ m, handleSecurityAlert p env (fun _ => .ok b) toISO
        = .ok (⟨if b then 200 else 500, some (successBody b)⟩, [m]))
    ∧ (cspAppName qp parse csp.documentUri = some name →
        getRecipientEmail name env = some r →
        ∃ m, handleCspReport csp qp env (fun _ => .ok b) toISO parse now
          = .ok (⟨204, none⟩, [m]))
    ∧ successBody true = "\x7b\"success\":true\x7d".toList
    ∧ successBody false = "\x7b\"success\":false\x7d".toList := by
  refine ⟨?_, ?_, by decide, by decide⟩
  · intro hv hr
    simp only [handleSecurityAlert, hv, hr]
    exact ⟨_, rfl⟩
  · intro hn hr
    simp only [handleCspReport, hn, hr]
    exact ⟨_, rfl⟩

/-- Witness for C6: a valid `mail_box` alert with a failing transport yields
500 with the success-false body. -/
theorem c6_transport_propagation_witness :
    ∃ m, handleSecurityAlert
        (JObj.cons appNameKey (.str ("mail_box".toList))
          (JObj.cons typeKey (.str ("unauthorized_fetch".toList))
            (JObj.cons urlKey (.str ("https://evil.example".toList))
              (JObj.cons hostnameKey (.str ("evil.example".toList))
                (JObj.cons timestampKey (.num 1700000000000) JObj.nil)))))
        [("APP_MAIL_BOX_EMAIL".toList, "mailbox@test.com".toList)]
        (fun _ => .ok false) (fun _ => [])
      = .ok (⟨500, some (successBody false)⟩, [m]) := by
  have h := (c6_transport_propagation
    (JObj.cons appNameKey (.str ("mail_box".toList))
      (JObj.cons typeKey (.str ("unauthorized_fetch".toList))
        (JObj.cons urlKey (.str ("https://evil.example".toList))
          (JObj.cons hostnameKey (.str ("evil.example".toList))
            (JObj.cons timestampKey (.num 1700000000000) JObj.nil)))))
    ⟨"https://x".toList, "img-src".toList, "https://y".toList, none, none, none⟩
    none [("APP_MAIL_BOX_EMAIL".toList, "mailbox@test.com".toList)]
    (fun _ => []) (fun _ => none) 0 ("mailbox@test.com".toList)
    ("mail_box".toList) false).1 (by decide) (by decide)
  simpa using h

/-- C9: on a POST request the oversized-body rejection is decided solely by
the Content-Length header — a header parsing to a value above 102400 yields
the 413 response with the payload-too-large body whatever the handlers would
do, while an absent header (or one parsing within the limit) lets the
request reach path routing unchanged. -/
theorem c9_size_guard (path : Str) (cl : Option Str) (hAlert hCsp : Except Unit Resp) :
    (∀ s n, cl = some s → parseIntJS s = some n → n > MAX_REQUEST_BODY_SIZE →
      workerFetch methodPost path cl hAlert hCsp
        = ⟨413, some (errBody payloadTooLargeMsg)⟩)
    ∧ (cl = none →
        workerFetch methodPost path cl hAlert hCsp = routeAndCatch path hAlert hCsp)
    ∧ (∀ s n, cl = some s → parseIntJS s = some n → n ≤ MAX_REQUEST_BODY_SIZE →
        workerFetch methodPost path cl hAlert hCsp = routeAndCatch path hAlert hCsp) := by
  refine ⟨?_, ?_, ?_⟩
  · intro s n hcl hp hn
    subst hcl
    have hne : s.isEmpty = false := by
      cases s with
      | nil => rw [show parseIntJS [] = none from rfl] at hp; cases hp
      | cons c t => rfl
    have hsz : sizeExceededB (some s) = true := by
      rw [sizeExceededB, hne, hp]
      simp [hn]
    rw [workerFetch, if_neg (by decide), if_neg (by simp), if_pos hsz]
  · intro hcl
    subst hcl
    rw [workerFetch, if_neg (by decide), if_neg (by simp),
      if_neg (by rw [sizeExceededB]; simp)]
  · intro s n hcl hp hn
    subst hcl
    have hsz : sizeExceededB (some s) = false := by
      rw [sizeExceededB, hp]
      simp
      omega
    rw [workerFetch, if_neg (by decide), if_neg (by simp), if_neg (by rw [hsz]; simp)]

set_option maxRecDepth 4000 in
/-- Witness for C9: a POST to the alert path with Content-Length 200000 is
rejected with 413 regardless of the handler outcomes. -/
theorem c9_size_guard_witness :
    workerFetch methodPost pathAlert (some ("200000".toList))
        (Except.ok ⟨200, none⟩) (Except.ok ⟨204, none⟩)
      = ⟨413, some (errBody payloadTooLargeMsg)⟩ := by
  exact (c9_size_guard pathAlert (some ("200000".toList))
    (Except.ok ⟨200, none⟩) (Except.ok ⟨204, none⟩)).1
    ("200000".toList) 200000 rfl (by decide) (by decide)

set_option maxRecDepth 8000 in
/-- C10: the hostname of every synthesized CSP alert equals the hostname
component of the blocked URI when it parses, and the original blocked-URI
string unchanged when it does not (never an error); and a CSP report that is
processed far enough sends exactly the rendering of that synthesized alert. -/
theorem c10_csp_hostname (parse : Str → Option URLm) (csp : CspData)
    (name : Str) (now : Int) (qp : Option Str) (env : List (Str × Str))
    (toISO : Int → Str) (r : Str) (b : Bool) :
    ((synthesizeAlert parse csp name now).hostname = extractHostname parse csp.blockedUri)
    ∧ (parse csp.blockedUri = none →
        (synthesizeAlert parse csp name now).hostname = csp.blockedUri)
    ∧ (∀ u, parse csp.blockedUri = some u →
        (synthesizeAlert parse csp name now).hostname = u.hostname)
    ∧ (cspAppName qp parse csp.documentUri = some name →
        getRecipientEmail name env = some r →
        ∃ m, handleCspReport csp qp env (fun _ => .ok b) toISO parse now
            = .ok (⟨204, none⟩, [m])
          ∧ m.html = formatSecurityAlertEmail toISO (synthesizeAlert parse csp name now)) := by
  refine ⟨rfl, ?_, ?_, ?_⟩
  · intro h
    simp [synthesizeAlert, extractHostname, h]
  · intro u h
    simp [synthesizeAlert, extractHostname, h]
  · intro hn hr
    simp only [handleCspReport, hn, hr]
    exact ⟨_, rfl, rfl⟩

/-- Witness for C10: an unparseable blocked URI is carried through verbatim
as the synthesized hostname. -/
theorem c10_csp_hostname_witness :
    (synthesizeAlert (fun _ => none)
        ⟨"https://x".toList, "img-src".toList, "not a url".toList, none, none, none⟩
        ("mail_box".toList) 0).hostname = "not a url".toList := by
  exact (c10_csp_hostname (fun _ => none)
    ⟨"https://x".toList, "img-src".toList, "not a url".toList, none, none, none⟩
    ("mail_box".toList) 0 none [] (fun _ => []) [] true).2.1 rfl

/-- The label text whose presence tracks the App Version block. -/
def appVersionLabel : Str := "App Version".toList

theorem isPrefixB_nilp (l : Str) : isPrefixB [] l = true := by
  cases l <;> rfl

theorem isPrefixB_cons_nil (p : Char) (ps : Str) : isPrefixB (p :: ps) [] = false := rfl

theorem isPrefixB_cons_cons (p x : Char) (ps l : Str) :
    isPrefixB (p :: ps) (x :: l) = ((p == x) && isPrefixB ps l) := rfl

theorem containsStr_cons (c : Char) (t pat : Str) :
    containsStr (c :: t) pat = (isPrefixB pat (c :: t) || containsStr t pat) := rfl

theorem containsStr_nilStr (pat : Str) : containsStr [] pat = isPrefixB pat [] := rfl

theorem containsStr_nilPat (s : Str) : containsStr s [] = true := by
  cases s with
  | nil => rfl
  | cons c t => rw [containsStr_cons, isPrefixB_nilp]; rfl

theorem containsStr_nil_of_ne (pat : Str) (h : pat ≠ []) : containsStr [] pat = false := by
  cases pat with
  | nil => exact absurd rfl h
  | cons p ps => rfl

theorem headAppendNe (l1 l2 : Str) (h : l1 ≠ []) : (l1 ++ l2).head? = l1.head? := by
  cases l1 with
  | nil => exact absurd rfl h
  | cons a t => rfl

theorem isPrefixB_append_cons (pat : Str) (x : Char) (xs ys : Str) (c : Char)
    (hy : ys.head? = some c) (hc : c ∉ pat) :
    isPrefixB pat ((x :: xs) ++ ys) = isPrefixB pat (x :: xs) := by
  induction xs generalizing pat x with
  | nil =>
    cases pat with
    | nil => rw [isPrefixB_nilp, isPrefixB_nilp]
    | cons p ps =>
      cases ys with
      | nil => cases hy
      | cons a t =>
        have ha : a = c := by injection hy
        have e : (([x] : Str) ++ a :: t) = x :: a :: t := rfl
        rw [e, isPrefixB_cons_cons, isPrefixB_cons_cons]
        cases ps with
        | nil => rw [isPrefixB_nilp, isPrefixB_nilp]
        | cons q qs =>
          have hq : (q == a) = false := by
            have hne : q ≠ a := by
              intro he
              apply hc
              rw [ha] at he
              rw [← he]
              exact List.mem_cons.mpr (Or.inr (List.mem_cons_self q qs))
            exact beq_eq_false_iff_ne.mpr hne
          rw [isPrefixB_cons_cons, isPrefixB_cons_nil, hq]
          simp
  | cons y xs' ih =>
    cases pat with
    | nil => rw [isPrefixB_nilp, isPrefixB_nilp]
    | cons p ps =>
      have hcs : c ∉ ps := fun hm => hc (List.mem_cons.mpr (Or.inr hm))
      have e : ((x :: y :: xs' : Str) ++ ys) = x :: ((y :: xs') ++ ys) := rfl
      rw [e, isPrefixB_cons_cons, isPrefixB_cons_cons, ih ps y hcs]

theorem containsStr_append_right (xs ys pat : Str) (c : Char)
    (hy : ys.head? = some c) (hc : c ∉ pat) :
    containsStr (xs ++ ys) pat = (containsStr xs pat || containsStr ys pat) := by
  induction xs with
  | nil =>
    rw [List.nil_append, containsStr_nilStr]
    cases pat with
    | nil => rw [isPrefixB_nilp, containsStr_nilPat]; rfl
    | cons p ps => rw [isPrefixB_cons_nil, Bool.false_or]
  | cons x xs' ih =>
    have e : ((x :: xs' : Str) ++ ys) = x :: (xs' ++ ys) := rfl
    rw [e, containsStr_cons, ← e, isPrefixB_append_cons pat x xs' ys c hy hc, ih,
      ← Bool.or_assoc, ← containsStr_cons]

theorem isPrefixB_append_getLast (pat xs ys : Str) (c : Char)
    (hx : xs.getLast? = some c) (hc : c ∉ pat) :
    isPrefixB pat (xs ++ ys) = isPrefixB pat xs := by
  induction xs generalizing pat with
  | nil => cases hx
  | cons x xs' ih =>
    cases xs' with
    | nil =>
      have hcx : x = c := by
        have e : (([x] : Str)).getLast? = some x := rfl
        rw [e] at hx
        exact Option.some.inj hx
      cases pat with
      | nil => rw [isPrefixB_nilp, isPrefixB_nilp]
      | cons p ps =>
        have hp : (p == x) = false := by
          have hne : p ≠ x := by
            intro he
            apply hc
            rw [he, hcx]
            exact List.mem_cons.mpr (Or.inl rfl)
          exact beq_eq_false_iff_ne.mpr hne
        cases ys with
        | nil => rfl
        | cons b t =>
          have e : (([x] : Str) ++ b :: t) = x :: b :: t := rfl
          rw [e, isPrefixB_cons_cons, isPrefixB_cons_cons, hp]
          simp
    | cons y xs'' =>
      have hlast : (y :: xs'').getLast? = some c := by
        rw [← hx]
        rfl
      cases pat with
      | nil => rw [isPrefixB_nilp, isPrefixB_nilp]
      | cons p ps =>
        have hcs : c ∉ ps := fun hm => hc (List.mem_cons.mpr (Or.inr hm))
        have e : ((x :: y :: xs'' : Str) ++ ys) = x :: ((y :: xs'') ++ ys) := rfl
        rw [e, isPrefixB_cons_cons, isPrefixB_cons_cons, ih ps hlast hcs]

theorem containsStr_append_left (xs ys pat : Str) (c : Char)
    (hx : xs.getLast? = some c) (hc : c ∉ pat) :
    containsStr (xs ++ ys) pat = (containsStr xs pat || containsStr ys pat) := by
  induction xs with
  | nil => cases hx
  | cons x xs' ih =>
    cases hxs : xs' with
    | nil =>
      subst hxs
      cases pat with
      | nil => rw [containsStr_nilPat, containsStr_nilPat]; rfl
      | cons p ps =>
        have e : (([x] : Str) ++ ys) = x :: ys := rfl
        rw [e, containsStr_cons, ← e,
          isPrefixB_append_getLast (p :: ps) [x] ys c hx hc, containsStr_cons,
          containsStr_nilStr, isPrefixB_cons_nil, Bool.or_false]
    | cons y xs'' =>
      subst hxs
      have hlast : (y :: xs'').getLast? = some c := by
        rw [← hx]
        rfl
      have e : ((x :: y :: xs'' : Str) ++ ys) = x :: ((y :: xs'') ++ ys) := rfl
      rw [e, containsStr_cons, ← e,
        isPrefixB_append_getLast pat (x :: y :: xs'') ys c hx hc, ih hlast,
        ← Bool.or_assoc, ← containsStr_cons]

theorem isPrefixB_mono (pat s t : Str) (h : isPrefixB pat s = true) :
    isPrefixB pat (s ++ t) = true := by
  induction pat generalizing s with
  | nil => rw [isPrefixB_nilp]
  | cons p ps ih =>
    cases s with
    | nil => rw [isPrefixB_cons_nil] at h; cases h
    | cons a s' =>
      rw [isPrefixB_cons_cons, Bool.and_eq_true] at h
      have e : ((a :: s' : Str) ++ t) = a :: (s' ++ t) := rfl
      rw [e, isPrefixB_cons_cons, h.1, ih s' h.2]
      rfl

theorem containsStr_mono_left (xs ys pat : Str) (h : containsStr xs pat = true) :
    containsStr (xs ++ ys) pat = true := by
  induction xs with
  | nil =>
    cases pat with
    | nil => rw [List.nil_append, containsStr_nilPat]
    | cons p ps => rw [containsStr_nilStr, isPrefixB_cons_nil] at h; cases h
  | cons x xs' ih =>
    rw [containsStr_cons, Bool.or_eq_true] at h
    have e : ((x :: xs' : Str) ++ ys) = x :: (xs' ++ ys) := rfl
    rw [e, containsStr_cons, Bool.or_eq_true]
    rcases h with h | h
    · exact Or.inl (isPrefixB_mono pat (x :: xs') ys h)
    · exact Or.inr (ih h)

theorem containsStr_mono_right (xs ys pat : Str) (h : containsStr ys pat = true) :
    containsStr (xs ++ ys) pat = true := by
  induction xs with
  | nil => exact h
  | cons x xs' ih =>
    have e : ((x :: xs' : Str) ++ ys) = x :: (xs' ++ ys) := rfl
    rw [e, containsStr_cons, Bool.or_eq_true]
    exact Or.inr ih

theorem dropWhile_append_of_ne_nil (p : Char → Bool) (l1 l2 : Str)
    (h : l1.dropWhile p ≠ []) : (l1 ++ l2).dropWhile p = l1.dropWhile p ++ l2 := by
  induction l1 with
  | nil => exact absurd rfl h
  | cons a t ih =>
    cases hp : p a with
    | true =>
      have e1 : (a :: t).dropWhile p = t.dropWhile p := by simp [List.dropWhile, hp]
      have e2 : ((a :: t) ++ l2).dropWhile p = (t ++ l2).dropWhile p := by
        simp [List.dropWhile, hp]
      rw [e1] at h
      rw [e1, e2, ih h]
    | false =>
      have e1 : (a :: t).dropWhile p = a :: t := by simp [List.dropWhile, hp]
      have e2 : ((a :: t) ++ l2).dropWhile p = a :: (t ++ l2) := by
        simp [List.dropWhile, hp]
      rw [e1, e2]
      rfl

theorem jsTrim_format_shape (M : Str) :
    jsTrim (tplHead ++ (M ++ tplTail))
      = tplHead.dropWhile isJsSpace
        ++ (M ++ (tplTail.reverse.dropWhile isJsSpace).reverse) := by
  rw [jsTrim]
  rw [dropWhile_append_of_ne_nil isJsSpace tplHead (M ++ tplTail) (by decide)]
  have e1 : (tplHead.dropWhile isJsSpace ++ (M ++ tplTail)).reverse
      = tplTail.reverse ++ (M.reverse ++ (tplHead.dropWhile isJsSpace).reverse) := by
    simp [List.reverse_append]
  rw [e1]
  rw [dropWhile_append_of_ne_nil isJsSpace tplTail.reverse _ (by decide)]
  simp [List.reverse_append, List.reverse_reverse, List.append_assoc]

theorem optBlock_ne_nil_eq (pre post : Str) (s : Str) (hs : s.isEmpty = false) :
    optBlock pre post (some s) = pre ++ (escapeHtml s ++ post) := by
  simp [optBlock, hs]

theorem optBlock_append_head (pre post r : Str) (v : Option Str) (c : Char)
    (hpre : pre.head? = some c) (hr : r.head? = some c) :
    (optBlock pre post v ++ r).head? = some c := by
  cases v with
  | none => simpa [optBlock] using hr
  | some s =>
    cases hs : s.isEmpty with
    | true =>
      have e : optBlock pre post (some s) = [] := by simp [optBlock, hs]
      rw [e, List.nil_append]
      exact hr
    | false =>
      have hne : pre ≠ [] := by
        intro h
        rw [h] at hpre
        cases hpre
      rw [optBlock_ne_nil_eq pre post s hs, List.append_assoc, headAppendNe pre _ hne]
      exact hpre

theorem metaBlock_append_head (r : Str) (m : Option JVal) (c : Char)
    (hpre : mePre.head? = some c) (hr : r.head? = some c) :
    (metaBlock m ++ r).head? = some c := by
  cases m with
  | none => simpa [metaBlock] using hr
  | some j =>
    have hne : mePre ≠ [] := by
      intro h
      rw [h] at hpre
      cases hpre
    show ((mePre ++ (escapeHtml (jsonStringifyAt 0 j) ++ mePost)) ++ r).head? = some c
    rw [List.append_assoc, headAppendNe mePre _ hne]
    exact hpre

theorem contains_optBlock_false (pre post : Str) (v : Option Str) (pat : Str) (g h : Char)
    (hpg : pre.getLast? = some g) (hgp : g ∉ pat)
    (hph : post.head? = some h) (hhp : h ∉ pat)
    (hpatne : pat ≠ [])
    (hpre : containsStr pre pat = false) (hpost : containsStr post pat = false)
    (hchunk : containsStr (escapeHtml (v.getD [])) pat = false) :
    containsStr (optBlock pre post v) pat = false := by
  cases v with
  | none => simpa [optBlock] using containsStr_nil_of_ne pat hpatne
  | some s =>
    cases hs : s.isEmpty with
    | true =>
      have e : optBlock pre post (some s) = [] := by simp [optBlock, hs]
      rw [e]
      exact containsStr_nil_of_ne pat hpatne
    | false =>
      rw [optBlock_ne_nil_eq pre post s hs,
        containsStr_append_left pre _ pat g hpg hgp,
        containsStr_append_right (escapeHtml s) post pat h hph hhp,
        hpre, hpost]
      have hch : containsStr (escapeHtml s) pat = false := hchunk
      rw [hch]
      rfl


theorem contains_metaBlock_false (m : Option JVal) (pat : Str) (g h : Char)
    (hpg : mePre.getLast? = some g) (hgp : g ∉ pat)
    (hph : mePost.head? = some h) (hhp : h ∉ pat) (hpatne : pat ≠ [])
    (hpre : containsStr mePre pat = false) (hpost : containsStr mePost pat = false)
    (hchunk : ∀ j, m = some j →
      containsStr (escapeHtml (jsonStringifyAt 0 j)) pat = false) :
    containsStr (metaBlock m) pat = false := by
  cases m with
  | none => simpa [metaBlock] using containsStr_nil_of_ne pat hpatne
  | some j =>
    show containsStr (mePre ++ (escapeHtml (jsonStringifyAt 0 j) ++ mePost)) pat = false
    rw [containsStr_append_left mePre _ pat g hpg hgp,
      containsStr_append_right _ mePost pat h hph hhp,
      hpre, hpost, hchunk j rfl]
    rfl

theorem contains_optBlock_eq_truthy (pre post : Str) (v : Option Str) (pat : Str)
    (hpre : containsStr pre pat = true) (hne : pat ≠ []) :
    containsStr (optBlock pre post v) pat = truthyStrOpt v := by
  cases v with
  | none =>
    show containsStr [] pat = false
    exact containsStr_nil_of_ne pat hne
  | some s =>
    cases hs : s.isEmpty with
    | true =>
      have e : optBlock pre post (some s) = [] := by simp [optBlock, hs]
      rw [e, containsStr_nil_of_ne pat hne]
      simp [truthyStrOpt, hs]
    | false =>
      rw [optBlock_ne_nil_eq pre post s hs, containsStr_mono_left pre _ pat hpre]
      simp [truthyStrOpt, hs]

theorem contains_metaBlock_eq_isSome (m : Option JVal) (pat : Str)
    (hpre : containsStr mePre pat = true) (hne : pat ≠ []) :
    containsStr (metaBlock m) pat = m.isSome := by
  cases m with
  | none =>
    show containsStr [] pat = false
    exact containsStr_nil_of_ne pat hne
  | some j =>
    show containsStr (mePre ++ (escapeHtml (jsonStringifyAt 0 j) ++ mePost)) pat = true
    exact containsStr_mono_left mePre _ pat hpre

/-- The label text of the Stack Trace block. -/
def stackTraceLabel : Str := "Stack Trace".toList

/-- The label text of the Additional Details (metadata) block. -/
def additionalDetailsLabel : Str := "Additional Details".toList

/-- An interpolated value is label-free when it contains none of the three
conditional block labels, so those labels can only come from the template. -/
abbrev labelFreeP (s : Str) : Prop :=
  containsStr s appVersionLabel = false
  ∧ containsStr s stackTraceLabel = false
  ∧ containsStr s additionalDetailsLabel = false

theorem typeHeader_no_label (t : AlertType) :
    containsStr (typeHeaderStr t) appVersionLabel = false := by
  cases t <;> decide

theorem typeHeader_no_stackLabel (t : AlertType) :
    containsStr (typeHeaderStr t) stackTraceLabel = false := by
  cases t <;> decide

theorem typeHeader_no_detailsLabel (t : AlertType) :
    containsStr (typeHeaderStr t) additionalDetailsLabel = false := by
  cases t <;> decide

/-- Splitting the rendered document at its junctions: for any pattern free of
the junction characters `>`, `<` and newline, containment in the document is
the disjunction of containment in each template piece, each escaped value and
each conditional block. -/
theorem contains_format_split (toISO : Int → Str) (alert : SecurityAlert) (pat : Str)
    (hgt : '>' ∉ pat) (hlt : '<' ∉ pat) (hnl : '\n' ∉ pat) :
    containsStr (formatSecurityAlertEmail toISO alert) pat
      = (containsStr (tplHead.dropWhile isJsSpace) pat
        || (containsStr (typeHeaderStr alert.type) pat
        || (containsStr tpl1 pat
        || (containsStr (escapeHtml alert.appName) pat
        || (containsStr tpl2 pat
        || (containsStr (toISO alert.timestamp) pat
        || (containsStr tpl3 pat
        || (containsStr (escapeHtml alert.url) pat
        || (containsStr tpl4 pat
        || (containsStr (escapeHtml alert.hostname) pat
        || (containsStr tpl5 pat
        || (containsStr (optBlock avPre avPost alert.appVersion) pat
        || (containsStr tplGlue pat
        || (containsStr (optBlock uaPre uaPost alert.userAgent) pat
        || (containsStr tplGlue pat
        || (containsStr (optBlock stPre stPost alert.stack) pat
        || (containsStr tplGlue pat
        || (containsStr (metaBlock alert.metadata) pat
        || containsStr ((tplTail.reverse.dropWhile isJsSpace).reverse) pat)))))))))))))))))) := by
  have hre := jsTrim_format_shape (typeHeaderStr alert.type ++ (tpl1
    ++ (escapeHtml alert.appName ++ (tpl2 ++ (toISO alert.timestamp
    ++ (tpl3 ++ (escapeHtml alert.url ++ (tpl4 ++ (escapeHtml alert.hostname
    ++ (tpl5 ++ (optBlock avPre avPost alert.appVersion ++ (tplGlue
    ++ (optBlock uaPre uaPost alert.userAgent ++ (tplGlue
    ++ (optBlock stPre stPost alert.stack ++ (tplGlue
    ++ metaBlock alert.metadata))))))))))))))))
  have hfmt : formatSecurityAlertEmail toISO alert
      = jsTrim (tplHead ++ ((typeHeaderStr alert.type ++ (tpl1
        ++ (escapeHtml alert.appName ++ (tpl2 ++ (toISO alert.timestamp
        ++ (tpl3 ++ (escapeHtml alert.url ++ (tpl4 ++ (escapeHtml alert.hostname
        ++ (tpl5 ++ (optBlock avPre avPost alert.appVersion ++ (tplGlue
        ++ (optBlock uaPre uaPost alert.userAgent ++ (tplGlue
        ++ (optBlock stPre stPost alert.stack ++ (tplGlue
        ++ metaBlock alert.metadata)))))))))))))))) ++ tplTail)) := by
    rw [formatSecurityAlertEmail]
    simp [List.append_assoc]
  rw [hfmt, hre]
  simp only [List.append_assoc]
  rw [containsStr_append_left (tplHead.dropWhile isJsSpace) _ pat '>'
    (by decide) hgt]
  rw [containsStr_append_right (typeHeaderStr alert.type) _ pat '<'
    (by rw [headAppendNe tpl1 _ (by decide)]; decide) hlt]
  rw [containsStr_append_left tpl1 _ pat '>' (by decide) hgt]
  rw [containsStr_append_right (escapeHtml alert.appName) _ pat '<'
    (by rw [headAppendNe tpl2 _ (by decide)]; decide) hlt]
  rw [containsStr_append_left tpl2 _ pat '>' (by decide) hgt]
  rw [containsStr_append_right (toISO alert.timestamp) _ pat '<'
    (by rw [headAppendNe tpl3 _ (by decide)]; decide) hlt]
  rw [containsStr_append_left tpl3 _ pat '>' (by decide) hgt]
  rw [containsStr_append_right (escapeHtml alert.url) _ pat '<'
    (by rw [headAppendNe tpl4 _ (by decide)]; decide) hlt]
  rw [containsStr_append_left tpl4 _ pat '>' (by decide) hgt]
  rw [containsStr_append_right (escapeHtml alert.hostname) _ pat '<'
    (by rw [headAppendNe tpl5 _ (by decide)]; decide) hlt]
  rw [containsStr_append_right tpl5 _ pat '\n'
    (optBlock_append_head avPre avPost _ alert.appVersion '\n' (by decide)
      (by rw [headAppendNe tplGlue _ (by decide)]; decide)) hnl]
  rw [containsStr_append_right (optBlock avPre avPost alert.appVersion) _ pat '\n'
    (by rw [headAppendNe tplGlue _ (by decide)]; decide) hnl]
  rw [containsStr_append_right tplGlue _ pat '\n'
    (optBlock_append_head uaPre uaPost _ alert.userAgent '\n' (by decide)
      (by rw [headAppendNe tplGlue _ (by decide)]; decide)) hnl]
  rw [containsStr_append_right (optBlock uaPre uaPost alert.userAgent) _ pat '\n'
    (by rw [headAppendNe tplGlue _ (by decide)]; decide) hnl]
  rw [containsStr_append_right tplGlue _ pat '\n'
    (optBlock_append_head stPre stPost _ alert.stack '\n' (by decide)
      (by rw [headAppendNe tplGlue _ (by decide)]; decide)) hnl]
  rw [containsStr_append_right (optBlock stPre stPost alert.stack) _ pat '\n'
    (by rw [headAppendNe tplGlue _ (by decide)]; decide) hnl]
  rw [containsStr_append_right tplGlue _ pat '\n'
    (metaBlock_append_head _ alert.metadata '\n' (by decide) (by decide)) hnl]
  rw [containsStr_append_right (metaBlock alert.metadata) _ pat '\n'
    (by decide) hnl]

/-- C8: under the hypotheses that the interpolated values are label-free
(the three block labels can only come from the template), the rendered
document contains the label `App Version` exactly when `appVersion` is
truthy, the label `Stack Trace` exactly when `stack` is truthy, and the
label `Additional Details` exactly when `metadata` is present; and an alert
with `appVersion` equal to `1.2.3` renders a document containing the escaped
value as well. -/
theorem c8_conditional_rendering (toISO : Int → Str) (alert : SecurityAlert)
    (hApp : labelFreeP (escapeHtml alert.appName))
    (hTs : labelFreeP (toISO alert.timestamp))
    (hUrl : labelFreeP (escapeHtml alert.url))
    (hHost : labelFreeP (escapeHtml alert.hostname))
    (hAv : labelFreeP (escapeHtml (alert.appVersion.getD [])))
    (hUa : labelFreeP (escapeHtml (alert.userAgent.getD [])))
    (hStack : labelFreeP (escapeHtml (alert.stack.getD [])))
    (hMeta : ∀ j, alert.metadata = some j →
      labelFreeP (escapeHtml (jsonStringifyAt 0 j))) :
    containsStr (formatSecurityAlertEmail toISO alert) appVersionLabel
        = truthyStrOpt alert.appVersion
    ∧ containsStr (formatSecurityAlertEmail toISO alert) stackTraceLabel
        = truthyStrOpt alert.stack
    ∧ containsStr (formatSecurityAlertEmail toISO alert) additionalDetailsLabel
        = alert.metadata.isSome
    ∧ (alert.appVersion = some ("1.2.3".toList) →
        containsStr (formatSecurityAlertEmail toISO alert)
          (escapeHtml ("1.2.3".toList)) = true) := by
  refine ⟨?_, ?_, ?_, ?_⟩
  · rw [contains_format_split toISO alert appVersionLabel (by decide) (by decide)
      (by decide)]
    have eav : containsStr (optBlock avPre avPost alert.appVersion) appVersionLabel
        = truthyStrOpt alert.appVersion :=
      contains_optBlock_eq_truthy avPre avPost alert.appVersion appVersionLabel
        (by decide) (by decide)
    have eua : containsStr (optBlock uaPre uaPost alert.userAgent) appVersionLabel
        = false :=
      contains_optBlock_false uaPre uaPost alert.userAgent appVersionLabel '>' '<'
        (by decide) (by decide) (by decide) (by decide) (by decide) (by decide)
        (by decide) hUa.1
    have est : containsStr (optBlock stPre stPost alert.stack) appVersionLabel
        = false :=
      contains_optBlock_false stPre stPost alert.stack appVersionLabel '>' '<'
        (by decide) (by decide) (by decide) (by decide) (by decide) (by decide)
        (by decide) hStack.1
    have eme : containsStr (metaBlock alert.metadata) appVersionLabel = false :=
      contains_metaBlock_false alert.metadata appVersionLabel '>' '<'
        (by decide) (by decide) (by decide) (by decide) (by decide) (by decide)
        (by decide) (fun j hj => (hMeta j hj).1)
    have t0 : containsStr (tplHead.dropWhile isJsSpace) appVersionLabel = false := by
      decide
    have t1 : containsStr tpl1 appVersionLabel = false := by decide
    have t2 : containsStr tpl2 appVersionLabel = false := by decide
    have t3 : containsStr tpl3 appVersionLabel = false := by decide
    have t4 : containsStr tpl4 appVersionLabel = false := by decide
    have t5 : containsStr tpl5 appVersionLabel = false := by decide
    have tg : containsStr tplGlue appVersionLabel = false := by decide
    have tz : containsStr ((tplTail.reverse.dropWhile isJsSpace).reverse)
        appVersionLabel = false := by decide
    simp only [t0, typeHeader_no_label, t1, hApp.1, t2, hTs.1, t3, hUrl.1, t4,
      hHost.1, t5, eav, tg, eua, est, eme, tz, Bool.false_or, Bool.or_false]
  · rw [contains_format_split toISO alert stackTraceLabel (by decide) (by decide)
      (by decide)]
    have eav : containsStr (optBlock avPre avPost alert.appVersion) stackTraceLabel
        = false :=
      contains_optBlock_false avPre avPost alert.appVersion stackTraceLabel '>' '<'
        (by decide) (by decide) (by decide) (by decide) (by decide) (by decide)
        (by decide) hAv.2.1
    have eua : containsStr (optBlock uaPre uaPost alert.userAgent) stackTraceLabel
        = false :=
      contains_optBlock_false uaPre uaPost alert.userAgent stackTraceLabel '>' '<'
        (by decide) (by decide) (by decide) (by decide) (by decide) (by decide)
        (by decide) hUa.2.1
    have est : containsStr (optBlock stPre stPost alert.stack) stackTraceLabel
        = truthyStrOpt alert.stack :=
      contains_optBlock_eq_truthy stPre stPost alert.stack stackTraceLabel
        (by decide) (by decide)
    have eme : containsStr (metaBlock alert.metadata) stackTraceLabel = false :=
      contains_metaBlock_false alert.metadata stackTraceLabel '>' '<'
        (by decide) (by decide) (by decide) (by decide) (by decide) (by decide)
        (by decide) (fun j hj => (hMeta j hj).2.1)
    have t0 : containsStr (tplHead.dropWhile isJsSpace) stackTraceLabel = false := by
      decide
    have t1 : containsStr tpl1 stackTraceLabel = false := by decide
    have t2 : containsStr tpl2 stackTraceLabel = false := by decide
    have t3 : containsStr tpl3 stackTraceLabel = false := by decide
    have t4 : containsStr tpl4 stackTraceLabel = false := by decide
    have t5 : containsStr tpl5 stackTraceLabel = false := by decide
    have tg : containsStr tplGlue stackTraceLabel = false := by decide
    have tz : containsStr ((tplTail.reverse.dropWhile isJsSpace).reverse)
        stackTraceLabel = false := by decide
    simp only [t0, typeHeader_no_stackLabel, t1, hApp.2.1, t2, hTs.2.1, t3, hUrl.2.1,
      t4, hHost.2.1, t5, eav, tg, eua, est, eme, tz, Bool.false_or, Bool.or_false]
  · rw [contains_format_split toISO alert additionalDetailsLabel (by decide)
      (by decide) (by decide)]
    have eav : containsStr (optBlock avPre avPost alert.appVersion)
        additionalDetailsLabel = false :=
      contains_optBlock_false avPre avPost alert.appVersion additionalDetailsLabel
        '>' '<' (by decide) (by decide) (by decide) (by decide) (by decide)
        (by decide) (by decide) hAv.2.2
    have eua : containsStr (optBlock uaPre uaPost alert.userAgent)
        additionalDetailsLabel = false :=
      contains_optBlock_false uaPre uaPost alert.userAgent additionalDetailsLabel
        '>' '<' (by decide) (by decide) (by decide) (by decide) (by decide)
        (by decide) (by decide) hUa.2.2
    have est : containsStr (optBlock stPre stPost alert.stack)
        additionalDetailsLabel = false :=
      contains_optBlock_false stPre stPost alert.stack additionalDetailsLabel
        '>' '<' (by decide) (by decide) (by decide) (by decide) (by decide)
        (by decide) (by decide) hStack.2.2
    have eme : containsStr (metaBlock alert.metadata) additionalDetailsLabel
        = alert.metadata.isSome :=
      contains_metaBlock_eq_isSome alert.metadata additionalDetailsLabel
        (by decide) (by decide)
    have t0 : containsStr (tplHead.dropWhile isJsSpace) additionalDetailsLabel
        = false := by decide
    have t1 : containsStr tpl1 additionalDetailsLabel = false := by decide
    have t2 : containsStr tpl2 additionalDetailsLabel = false := by decide
    have t3 : containsStr tpl3 additionalDetailsLabel = false := by decide
    have t4 : containsStr tpl4 additionalDetailsLabel = false := by decide
    have t5 : containsStr tpl5 additionalDetailsLabel = false := by decide
    have tg : containsStr tplGlue additionalDetailsLabel = false := by decide
    have tz : containsStr ((tplTail.reverse.dropWhile isJsSpace).reverse)
        additionalDetailsLabel = false := by decide
    simp only [t0, typeHeader_no_detailsLabel, t1, hApp.2.2, t2, hTs.2.2, t3,
      hUrl.2.2, t4, hHost.2.2, t5, eav, tg, eua, est, eme, tz,
      Bool.false_or, Bool.or_false]
  · intro hv123
    have hre := jsTrim_format_shape (typeHeaderStr alert.type ++ (tpl1
      ++ (escapeHtml alert.appName ++ (tpl2 ++ (toISO alert.timestamp
      ++ (tpl3 ++ (escapeHtml alert.url ++ (tpl4 ++ (escapeHtml alert.hostname
      ++ (tpl5 ++ (optBlock avPre avPost alert.appVersion ++ (tplGlue
      ++ (optBlock uaPre uaPost alert.userAgent ++ (tplGlue
      ++ (optBlock stPre stPost alert.stack ++ (tplGlue
      ++ metaBlock alert.metadata))))))))))))))))
    have hfmt : formatSecurityAlertEmail toISO alert
        = jsTrim (tplHead ++ ((typeHeaderStr alert.type ++ (tpl1
          ++ (escapeHtml alert.appName ++ (tpl2 ++ (toISO alert.timestamp
          ++ (tpl3 ++ (escapeHtml alert.url ++ (tpl4 ++ (escapeHtml alert.hostname
          ++ (tpl5 ++ (optBlock avPre avPost alert.appVersion ++ (tplGlue
          ++ (optBlock uaPre uaPost alert.userAgent ++ (tplGlue
          ++ (optBlock stPre stPost alert.stack ++ (tplGlue
          ++ metaBlock alert.metadata)))))))))))))))) ++ tplTail)) := by
      rw [formatSecurityAlertEmail]
      simp [List.append_assoc]
    rw [hfmt, hre, hv123]
    simp only [List.append_assoc]
    apply containsStr_mono_right
    apply containsStr_mono_right
    apply containsStr_mono_right
    apply containsStr_mono_right
    apply containsStr_mono_right
    apply containsStr_mono_right
    apply containsStr_mono_right
    apply containsStr_mono_right
    apply containsStr_mono_right
    apply containsStr_mono_right
    apply containsStr_mono_right
    apply containsStr_mono_left
    decide

/-- Witness for C8: a concrete alert with `appVersion` equal to `1.2.3`, no
stack trace and no metadata renders HTML containing the App Version label
and the escaped value but not the Stack Trace label. -/
theorem c8_conditional_rendering_witness :
    containsStr (formatSecurityAlertEmail (fun _ => "2023-11-14T22:13:20.000Z".toList)
        ⟨"mail_box".toList, .unauthorized_fetch, "https://malicious.com/api".toList,
          "malicious.com".toList, 1700000000000, none, some ("1.2.3".toList), none, none⟩)
      appVersionLabel = true
    ∧ containsStr (formatSecurityAlertEmail (fun _ => "2023-11-14T22:13:20.000Z".toList)
        ⟨"mail_box".toList, .unauthorized_fetch, "https://malicious.com/api".toList,
          "malicious.com".toList, 1700000000000, none, some ("1.2.3".toList), none, none⟩)
      stackTraceLabel = false
    ∧ containsStr (formatSecurityAlertEmail (fun _ => "2023-11-14T22:13:20.000Z".toList)
        ⟨"mail_box".toList, .unauthorized_fetch, "https://malicious.com/api".toList,
          "malicious.com".toList, 1700000000000, none, some ("1.2.3".toList), none, none⟩)
      additionalDetailsLabel = false
    ∧ containsStr (formatSecurityAlertEmail (fun _ => "2023-11-14T22:13:20.000Z".toList)
        ⟨"mail_box".toList, .unauthorized_fetch, "https://malicious.com/api".toList,
          "malicious.com".toList, 1700000000000, none, some ("1.2.3".toList), none, none⟩)
      (escapeHtml ("1.2.3".toList)) = true := by
  have h := c8_conditional_rendering (fun _ => "2023-11-14T22:13:20.000Z".toList)
    ⟨"mail_box".toList, .unauthorized_fetch, "https://malicious.com/api".toList,
      "malicious.com".toList, 1700000000000, none, some ("1.2.3".toList), none, none⟩
    (by decide) (by decide) (by decide) (by decide) (by decide) (by decide)
    (by decide) (by intro j hj; cases hj)
  exact ⟨h.1.trans (by decide), h.2.1.trans (by decide), h.2.2.1.trans (by decide),
    h.2.2.2 rfl⟩
